import Mathlib

/-!
Verification of the Hebrew comprehension-classification core of the
SelfStudyHebrew browser extension.

The JavaScript source is embedded shallowly: strings are Lean `String`s
(all Hebrew text lives in the Unicode BMP, so JavaScript's UTF-16
`.length`, `.startsWith` on a single letter, and `.substring(1)` agree
with Lean's character-based `String.length` and dropping one character);
JavaScript arrays of vocabulary words are `List String` and `includes`
is `List.contains`; JavaScript `Set`s used only for seen-checks are
`List String` accumulators.
-/

/-- A character in the nikud (diacritic) range U+0591..U+05C7,
matching the source's NIKUD_REGEX in hebrew-text.js. -/
def isNikud (c : Char) : Bool :=
  0x0591 ≤ c.toNat && c.toNat ≤ 0x05C7

/-- A character in the Hebrew block U+0590..U+05FF, matching the
source's HEBREW_WORD_REGEX character class. -/
def isHebrewChar (c : Char) : Bool :=
  0x0590 ≤ c.toNat && c.toNat ≤ 0x05FF

/-- Function `normalizeHebrew` from Chrome/src/utils/hebrew-text.js: on a falsy
(empty) string returns the empty string, otherwise deletes every
character matched by NIKUD_REGEX. -/
def normalizeHebrew (word : String) : String :=
  if word.data.isEmpty then "" else ⟨word.data.filter (fun c => !isNikud c)⟩

/-- JavaScript `word.startsWith(c)` for a single BMP character `c`. -/
def headIs (s : String) (c : Char) : Bool :=
  match s.data with
  | [] => false
  | d :: _ => d == c

/-- JavaScript `word.substring(1)` for a BMP string. -/
def dropFirst (s : String) : String := ⟨s.data.drop 1⟩

/-- The conjunction letter vav ו. -/
def vavChar : Char := 'ו'

/-- The letter lamed ל. -/
def lamedChar : Char := 'ל'

/-- The letter bet ב. -/
def betChar : Char := 'ב'

/-- The letter shin ש. -/
def shinChar : Char := 'ש'

/-- The loop list `['ל', 'ב', 'ש']` of getWordKnownType / getWordType. -/
def commonHebrewLetters : List Char := [lamedChar, betChar, shinChar]

/-- Result type of Chrome's getWordKnownType:
'known' / 'potentially-known' / 'unknown'. -/
inductive KnownType where
  | known
  | potentiallyKnown
  | unknown
deriving DecidableEq, Repr

/-- Result type of Firefox's getWordType:
'mature' / 'learning' / 'potentially-known' / 'unknown'. -/
inductive WordType where
  | mature
  | learning
  | potentiallyKnown
  | unknown
deriving DecidableEq, Repr

/-- The `for (const prefix of ['ל','ב','ש'])` loop shared verbatim by
getWordKnownType (hebrew-text.js lines 101-109) and getWordType
(word-highlighter.js lines 55-64): returns true when some letter of the
list starts the word (length > 1) and the stripped form is in either
vocabulary list; the only value the loop can return in the source is
'potentially-known', so a Bool captures it. -/
def strippedLetterMatches (normalizedWord : String)
    (matureWords learningWords : List String) : List Char → Bool
  | [] => false
  | p :: ps =>
    if headIs normalizedWord p && 1 < normalizedWord.length
        && (matureWords.contains (dropFirst normalizedWord)
            || learningWords.contains (dropFirst normalizedWord)) then
      true
    else strippedLetterMatches normalizedWord matureWords learningWords ps

/-- Function `getWordKnownType` from Chrome/src/utils/hebrew-text.js lines
89-112.  Takes an already-normalized word (per its doc comment) and the
two vocabulary arrays; it does not normalize anything itself. -/
def getWordKnownType (normalizedWord : String)
    (matureWords learningWords : List String) : KnownType :=
  if matureWords.contains normalizedWord || learningWords.contains normalizedWord then
    KnownType.known
  else if headIs normalizedWord vavChar && 1 < normalizedWord.length
      && (matureWords.contains (dropFirst normalizedWord)
          || learningWords.contains (dropFirst normalizedWord)) then
    KnownType.known
  else if strippedLetterMatches normalizedWord matureWords learningWords
      commonHebrewLetters then
    KnownType.potentiallyKnown
  else
    KnownType.unknown

/-- Function `isWordKnown` from Chrome/src/utils/hebrew-text.js lines 118-121. -/
def isWordKnown (normalizedWord : String)
    (matureWords learningWords : List String) : Bool :=
  getWordKnownType normalizedWord matureWords learningWords == KnownType.known

/-- Function `getWordType` from Firefox/src/highlighting/word-highlighter.js
lines 28-67: normalizes its token, then checks mature, learning, the
vav-stripped form (returning mature/learning), and finally the
ל/ב/ש-stripped forms (returning potentially-known). -/
def getWordType (word : String)
    (matureWords learningWords : List String) : WordType :=
  let normalized := normalizeHebrew word
  if matureWords.contains normalized then
    WordType.mature
  else if learningWords.contains normalized then
    WordType.learning
  else if headIs normalized vavChar && 1 < normalized.length
      && matureWords.contains (dropFirst normalized) then
    WordType.mature
  else if headIs normalized vavChar && 1 < normalized.length
      && learningWords.contains (dropFirst normalized) then
    WordType.learning
  else if strippedLetterMatches normalized matureWords learningWords
      commonHebrewLetters then
    WordType.potentiallyKnown
  else
    WordType.unknown

/-- Function `getWordType` from the content coordinator (src/unnamed/part_001
lines 47-73): identical body to the Firefox getWordType except that it
receives the word already normalized and does not normalize. -/
def getWordTypeCoordinator (normalizedWord : String)
    (matureWords learningWords : List String) : WordType :=
  if matureWords.contains normalizedWord then
    WordType.mature
  else if learningWords.contains normalizedWord then
    WordType.learning
  else if headIs normalizedWord vavChar && 1 < normalizedWord.length
      && matureWords.contains (dropFirst normalizedWord) then
    WordType.mature
  else if headIs normalizedWord vavChar && 1 < normalizedWord.length
      && learningWords.contains (dropFirst normalizedWord) then
    WordType.learning
  else if strippedLetterMatches normalizedWord matureWords learningWords
      commonHebrewLetters then
    WordType.potentiallyKnown
  else
    WordType.unknown

/-- Accumulator for the maximal-Hebrew-run scanner: `acc` holds the
(reversed) characters of the run currently being read. -/
def hebrewRunsAux : List Char → List Char → List (List Char)
  | [], acc => if acc.isEmpty then [] else [acc.reverse]
  | c :: cs, acc =>
    if isHebrewChar c then hebrewRunsAux cs (c :: acc)
    else if acc.isEmpty then hebrewRunsAux cs []
    else acc.reverse :: hebrewRunsAux cs []

/-- The value `text.match(HEBREW_WORD_REGEX) || []`: the maximal nonempty runs of
Hebrew-block characters in the text, in order. -/
def extractHebrewRuns (text : String) : List String :=
  (hebrewRunsAux text.data []).map (fun l => ⟨l⟩)

/-- Function `extractHebrewWords` from Chrome/src/utils/hebrew-text.js lines
53-68, specialized to `ignoreBrackets = false` (how every call site
relevant to the aggregator and sentence statistics invokes it): falsy
text gives [], otherwise the Hebrew runs whose diacritic-stripped
length is at least `minLength`. -/
def extractHebrewWords (text : String) (minLength : Nat) : List String :=
  if text.data.isEmpty then []
  else (extractHebrewRuns text).filter
    (fun word => minLength ≤ (normalizeHebrew word).length)

/-- The `hebrewWords.forEach` loop of `countWordTypes`
(src/unnamed/part_003 lines 110-129): `seen` is the
uniqueWordsInSentence set, `acc` the (unknownCount,
potentiallyKnownCount) pair. -/
def countWordTypesAux (matureWords learningWords : List String) :
    List String → List String → Nat × Nat → Nat × Nat
  | [], _, acc => acc
  | w :: ws, seen, acc =>
    let normalized := normalizeHebrew w
    if 0 < normalized.length && !seen.contains normalized then
      let ty := getWordKnownType normalized matureWords learningWords
      countWordTypesAux matureWords learningWords ws (normalized :: seen)
        (if ty = KnownType.unknown then (acc.1 + 1, acc.2)
         else if ty = KnownType.potentiallyKnown then (acc.1, acc.2 + 1)
         else acc)
    else countWordTypesAux matureWords learningWords ws seen acc

/-- Function `countWordTypes` from src/unnamed/part_003 lines 110-129: the
(unknownCount, potentiallyKnownCount) pair over the unique nonempty
normalized forms of the given words. -/
def countWordTypes (hebrewWords matureWords learningWords : List String) :
    Nat × Nat :=
  countWordTypesAux matureWords learningWords hebrewWords [] (0, 0)

/-- The `hebrewWords.forEach` loop of `countUnknownWords`
(src/unnamed/part_003 lines 13-28), which counts a word as unknown
whenever `isWordKnown` is false (so potentially-known words also
count). -/
def countUnknownWordsAux (matureWords learningWords : List String) :
    List String → List String → Nat → Nat
  | [], _, acc => acc
  | w :: ws, seen, acc =>
    let normalized := normalizeHebrew w
    if 0 < normalized.length && !seen.contains normalized then
      countUnknownWordsAux matureWords learningWords ws (normalized :: seen)
        (if !isWordKnown normalized matureWords learningWords then acc + 1 else acc)
    else countUnknownWordsAux matureWords learningWords ws seen acc

/-- Function `countUnknownWords` from src/unnamed/part_003 lines 13-28. -/
def countUnknownWords (hebrewWords matureWords learningWords : List String) : Nat :=
  countUnknownWordsAux matureWords learningWords hebrewWords [] 0

/-- Function `checkIfI1Sentence` from src/unnamed/part_003 lines 145-160: falsy
text → false; extract Hebrew runs whose normalized length exceeds 1;
fewer than 3 of them → false; otherwise true iff `countUnknownWords`
(which lumps potentially-known with unknown) is exactly 1. -/
def checkIfI1Sentence (sentenceText : String)
    (matureWords learningWords : List String) : Bool :=
  if sentenceText.data.isEmpty then false
  else
    let hebrewWords := (extractHebrewRuns sentenceText).filter
      (fun word => 1 < (normalizeHebrew word).length)
    if hebrewWords.length < 3 then false
    else countUnknownWords hebrewWords matureWords learningWords == 1

/-- Function `checkIfPotentiallyI1Sentence` from src/unnamed/part_003 lines
172-189: same gating, then true iff potentiallyKnownCount == 1 and
unknownCount is 0 or 1 per `countWordTypes`. -/
def checkIfPotentiallyI1Sentence (sentenceText : String)
    (matureWords learningWords : List String) : Bool :=
  if sentenceText.data.isEmpty then false
  else
    let hebrewWords := (extractHebrewRuns sentenceText).filter
      (fun word => 1 < (normalizeHebrew word).length)
    if hebrewWords.length < 3 then false
    else
      let counts := countWordTypes hebrewWords matureWords learningWords
      counts.2 == 1 && (counts.1 == 0 || counts.1 == 1)

/-- The fields of the sentence objects built by `highlightSentences`
(Firefox/src/highlighting/sentence-highlighter.js lines 193-200) that
the classification predicates read. -/
structure SentenceInfo where
  unknownCount : Nat
  potentiallyKnownCount : Nat
deriving DecidableEq, Repr

/-- Function `isI1Sentence` from sentence-highlighter.js lines 28-30. -/
def isI1Sentence (sentence : SentenceInfo) : Bool :=
  sentence.unknownCount == 1 && sentence.potentiallyKnownCount == 0

/-- Function `isPotentiallyI1Sentence` from sentence-highlighter.js lines 37-40. -/
def isPotentiallyI1Sentence (sentence : SentenceInfo) : Bool :=
  sentence.potentiallyKnownCount == 1 &&
    (sentence.unknownCount == 0 || sentence.unknownCount == 1)

/-- The three sentence-level outcomes of §4.3 of the design. -/
inductive SentenceClass where
  | iPlus1
  | potentiallyIPlus1
  | ordinary
deriving DecidableEq, Repr

/-- The per-subtitle sentence classification of
`calculateComprehensionStats` (src/unnamed/part_003 lines 58-71): units
with fewer than 3 extracted words are never classified; otherwise the
i+1 branch fires on (1, 0) counts and the else-if potentially-i+1
branch on potentiallyKnownCount 1 with unknownCount 0 or 1. -/
def classifySubtitleUnit (hebrewWords matureWords learningWords : List String) :
    SentenceClass :=
  if 3 ≤ hebrewWords.length then
    let counts := countWordTypes hebrewWords matureWords learningWords
    if counts.1 == 1 && counts.2 == 0 then SentenceClass.iPlus1
    else if counts.2 == 1 && (counts.1 == 0 || counts.1 == 1) then
      SentenceClass.potentiallyIPlus1
    else SentenceClass.ordinary
  else SentenceClass.ordinary

/-- The stats object returned by `calculateComprehensionStats`
(src/unnamed/part_003 lines 89-96). -/
structure Stats where
  total : Nat
  known : Nat
  potentiallyKnown : Nat
  percentage : Nat
  i1Sentences : Nat
  potentiallyI1Sentences : Nat
deriving DecidableEq, Repr

/-- The zeroed stats object of the catch branch
(src/unnamed/part_003 line 99). -/
def zeroStats : Stats :=
  { total := 0, known := 0, potentiallyKnown := 0, percentage := 0,
    i1Sentences := 0, potentiallyI1Sentences := 0 }

/-- The expression `Math.round((knownCount / totalWords) * 100)` modeled as exact
round-half-up on rationals: `floor(100k/t + 1/2) = (200k + t) / (2t)`
in natural-number division.  (The JavaScript double computation is
modeled as exact rational arithmetic.) -/
def roundPercentage (known total : Nat) : Nat :=
  (200 * known + total) / (2 * total)

/-- The operation `uniqueWords.add(normalized)` on a JavaScript `Set`, preserving
insertion order. -/
def insertUnique (uniq : List String) (x : String) : List String :=
  if uniq.contains x then uniq else uniq ++ [x]

/-- The inner `hebrewWords.forEach` of `calculateComprehensionStats`
(src/unnamed/part_003 lines 51-56): add each nonempty normalized form
to the document-wide unique-word set. -/
def addUniqueWords (uniq : List String) (hebrewWords : List String) : List String :=
  hebrewWords.foldl
    (fun u w =>
      let normalized := normalizeHebrew w
      if 0 < normalized.length then insertUnique u normalized else u)
    uniq

/-- One iteration of the `subtitles.forEach` loop of
`calculateComprehensionStats` (src/unnamed/part_003 lines 47-72),
threading (uniqueWords, i1SentenceCount, potentiallyI1SentenceCount). -/
def aggStep (matureWords learningWords : List String)
    (acc : List String × Nat × Nat) (subText : String) :
    List String × Nat × Nat :=
  let hebrewWords := extractHebrewWords subText 2
  let uniq := addUniqueWords acc.1 hebrewWords
  match classifySubtitleUnit hebrewWords matureWords learningWords with
  | SentenceClass.iPlus1 => (uniq, acc.2.1 + 1, acc.2.2)
  | SentenceClass.potentiallyIPlus1 => (uniq, acc.2.1, acc.2.2 + 1)
  | SentenceClass.ordinary => (uniq, acc.2.1, acc.2.2)

/-- The try-branch of `calculateComprehensionStats`
(src/unnamed/part_003 lines 42-96) after the vocabulary lists have been
obtained: fold the subtitle texts, then classify every unique word once
and compute the percentage with the division-by-zero guard
`totalWords > 0 ? Math.round(...) : 0`. -/
def computeStats (subtitles : List String)
    (matureWords learningWords : List String) : Stats :=
  let acc := subtitles.foldl (aggStep matureWords learningWords) ([], 0, 0)
  let uniqueWords := acc.1
  let knownCount := (uniqueWords.filter
    (fun w => getWordKnownType w matureWords learningWords == KnownType.known)).length
  let potentiallyKnownCount := (uniqueWords.filter
    (fun w => getWordKnownType w matureWords learningWords
        == KnownType.potentiallyKnown)).length
  let totalWords := uniqueWords.length
  { total := totalWords
    known := knownCount
    potentiallyKnown := potentiallyKnownCount
    percentage := if 0 < totalWords then roundPercentage knownCount totalWords else 0
    i1Sentences := acc.2.1
    potentiallyI1Sentences := acc.2.2 }

/-- Function `calculateComprehensionStats` from src/unnamed/part_003 lines
35-101.  The `chrome.runtime.sendMessage({action: 'getWords'})` fetch
is external to the core; its outcome is passed in as an `Except` value.
A successful fetch yields the two vocabulary lists and the try-branch
runs (`computeStats`); a failed fetch throws, and the catch branch
returns the zeroed stats object instead of propagating the error. -/
def calculateComprehensionStats
    (wordsFetch : Except String (List String × List String))
    (subtitles : List String) : Stats :=
  match wordsFetch with
  | Except.ok words => computeStats subtitles words.1 words.2
  | Except.error _ => zeroStats

/-- The set of distinct nonempty normalized forms of `ws` that are not
already in `seen`: the words the seen-set loops actually process. -/
def freshTokens (ws seen : List String) : Finset String :=
  ((ws.map normalizeHebrew).filter
    (fun n => 0 < n.length && !seen.contains n)).toFinset

/-- The number of unique nonempty normalized tokens of `ws` that
`getWordKnownType` classifies as `t` — the specification-level reading
of "counts taken over the unique normalized tokens of the sentence". -/
def uniqueTypeCard (ws matureWords learningWords : List String)
    (t : KnownType) : Nat :=
  (Finset.filter (fun n => getWordKnownType n matureWords learningWords = t)
    (freshTokens ws [])).card

lemma mem_freshTokens {x : String} {ws seen : List String} :
    x ∈ freshTokens ws seen ↔
      x ∈ ws.map normalizeHebrew ∧ 0 < x.length ∧ x ∉ seen := by
  simp [freshTokens, List.mem_filter, and_assoc]

lemma not_mem_freshTokens_self {n : String} {ws seen : List String} :
    n ∉ freshTokens ws (n :: seen) := by
  simp [mem_freshTokens]

lemma freshCond_iff {n : String} {seen : List String} :
    ((0 < n.length && !seen.contains n) = true) ↔ (0 < n.length ∧ n ∉ seen) := by
  simp

lemma freshTokens_cons_of_fresh {w : String} {ws seen : List String}
    (hlen : 0 < (normalizeHebrew w).length)
    (hseen : normalizeHebrew w ∉ seen) :
    freshTokens (w :: ws) seen =
      insert (normalizeHebrew w) (freshTokens ws (normalizeHebrew w :: seen)) := by
  ext x
  by_cases hx : x = normalizeHebrew w
  · subst hx
    simp [mem_freshTokens, hlen, hseen]
  · simp only [mem_freshTokens, List.map_cons, List.mem_cons, Finset.mem_insert]
    tauto

lemma freshTokens_cons_of_stale {w : String} {ws seen : List String}
    (h : ¬(0 < (normalizeHebrew w).length ∧ normalizeHebrew w ∉ seen)) :
    freshTokens (w :: ws) seen = freshTokens ws seen := by
  ext x
  simp only [mem_freshTokens, List.map_cons, List.mem_cons]
  constructor
  · rintro ⟨h1 | h1, h2, h3⟩
    · exact absurd (h1 ▸ ⟨h2, h3⟩) h
    · exact ⟨h1, h2, h3⟩
  · rintro ⟨h1, h2, h3⟩
    exact ⟨Or.inr h1, h2, h3⟩

lemma card_filter_insert_of_not_mem {α : Type} [DecidableEq α]
    (p : α → Prop) [DecidablePred p] {a : α} {s : Finset α} (h : a ∉ s) :
    (Finset.filter p (insert a s)).card =
      (if p a then 1 else 0) + (Finset.filter p s).card := by
  rw [Finset.filter_insert]
  split_ifs with hp
  · rw [Finset.card_insert_of_not_mem (fun hmem => h (Finset.mem_filter.mp hmem).1)]
    omega
  · omega

lemma countWordTypesAux_spec (matureWords learningWords : List String) :
    ∀ (ws seen : List String) (acc : Nat × Nat),
      countWordTypesAux matureWords learningWords ws seen acc =
        (acc.1 + (Finset.filter
            (fun n => getWordKnownType n matureWords learningWords = KnownType.unknown)
            (freshTokens ws seen)).card,
         acc.2 + (Finset.filter
            (fun n => getWordKnownType n matureWords learningWords
                = KnownType.potentiallyKnown)
            (freshTokens ws seen)).card) := by
  intro ws
  induction ws with
  | nil =>
    intro seen acc
    simp [countWordTypesAux, freshTokens]
  | cons w ws ih =>
    intro seen acc
    by_cases hc : 0 < (normalizeHebrew w).length ∧ normalizeHebrew w ∉ seen
    · rw [countWordTypesAux, if_pos (freshCond_iff.mpr hc), ih,
        freshTokens_cons_of_fresh hc.1 hc.2,
        card_filter_insert_of_not_mem _ not_mem_freshTokens_self,
        card_filter_insert_of_not_mem _ not_mem_freshTokens_self]
      rcases hty : getWordKnownType (normalizeHebrew w) matureWords learningWords with
        _ | _ | _ <;> simp [hty] <;> omega
    · rw [countWordTypesAux, if_neg (fun hp => hc (freshCond_iff.mp hp)), ih,
        freshTokens_cons_of_stale hc]

lemma countWordTypes_spec (hebrewWords matureWords learningWords : List String) :
    countWordTypes hebrewWords matureWords learningWords =
      (uniqueTypeCard hebrewWords matureWords learningWords KnownType.unknown,
       uniqueTypeCard hebrewWords matureWords learningWords KnownType.potentiallyKnown) := by
  simpa [uniqueTypeCard] using
    countWordTypesAux_spec matureWords learningWords hebrewWords [] (0, 0)

lemma normalizeHebrew_idem (x : String) :
    normalizeHebrew (normalizeHebrew x) = normalizeHebrew x := by
  unfold normalizeHebrew
  by_cases h : x.data.isEmpty
  · rw [if_pos h]
    simp
  · rw [if_neg h]
    by_cases h2 : (String.mk (x.data.filter (fun c => !isNikud c))).data.isEmpty
    · rw [if_pos h2]
      have hnil : x.data.filter (fun c => !isNikud c) = [] := by
        simpa using h2
      rw [hnil]
    · rw [if_neg h2]
      show String.mk ((x.data.filter (fun c => !isNikud c)).filter (fun c => !isNikud c))
        = String.mk (x.data.filter (fun c => !isNikud c))
      rw [List.filter_filter]
      simp

lemma headIs_unique {s : String} {c c' : Char} (h : headIs s c = true)
    (hne : c ≠ c') : headIs s c' = false := by
  rcases s with ⟨l⟩
  cases l with
  | nil => simp [headIs] at h
  | cons d ds =>
    simp only [headIs] at h ⊢
    have hdc : d = c := by simpa using h
    simp [hdc, hne]

lemma computeStats_percentage (subtitles matureWords learningWords : List String) :
    (computeStats subtitles matureWords learningWords).percentage =
      if 0 < (computeStats subtitles matureWords learningWords).total then
        roundPercentage (computeStats subtitles matureWords learningWords).known
          (computeStats subtitles matureWords learningWords).total
      else 0 := rfl

lemma roundPercentage_eq_round {known total : Nat} (h : 0 < total) :
    (roundPercentage known total : ℤ) =
      round (((known : ℚ) / (total : ℚ)) * 100) := by
  have ht : (total : ℚ) ≠ 0 := Nat.cast_ne_zero.mpr h.ne'
  have hq : (known : ℚ) / total * 100 + 1 / 2
      = ((200 * known + total : ℕ) : ℚ) / ((2 * total : ℕ) : ℚ) := by
    push_cast
    field_simp
    ring
  have hnn : (0 : ℚ) ≤ ((200 * known + total : ℕ) : ℚ) / ((2 * total : ℕ) : ℚ) :=
    div_nonneg (Nat.cast_nonneg _) (Nat.cast_nonneg _)
  rw [round_eq, hq, ← Int.natCast_floor_eq_floor hnn, Nat.floor_div_eq_div]
  rfl

/-- C1: for every sentence with at least 3 extracted Hebrew tokens, the
sentence classifier of calculateComprehensionStats returns i-plus-1 iff
exactly one of the sentence's unique nonempty normalized tokens is
classified unknown and none potentially-known, and returns
potentially-i-plus-1 iff exactly one unique token is potentially-known
and the unknown count is 0 or 1. -/
theorem sentence_classification_iff_unique_counts
    (hebrewWords matureWords learningWords : List String)
    (h3 : 3 ≤ hebrewWords.length) :
    (classifySubtitleUnit hebrewWords matureWords learningWords
        = SentenceClass.iPlus1 ↔
      (uniqueTypeCard hebrewWords matureWords learningWords KnownType.unknown = 1 ∧
       uniqueTypeCard hebrewWords matureWords learningWords
         KnownType.potentiallyKnown = 0)) ∧
    (classifySubtitleUnit hebrewWords matureWords learningWords
        = SentenceClass.potentiallyIPlus1 ↔
      (uniqueTypeCard hebrewWords matureWords learningWords
         KnownType.potentiallyKnown = 1 ∧
       (uniqueTypeCard hebrewWords matureWords learningWords KnownType.unknown = 0 ∨
        uniqueTypeCard hebrewWords matureWords learningWords KnownType.unknown = 1))) := by
  have hcw := countWordTypes_spec hebrewWords matureWords learningWords
  simp only [classifySubtitleUnit, if_pos h3, hcw]
  generalize uniqueTypeCard hebrewWords matureWords learningWords
    KnownType.unknown = u at *
  generalize uniqueTypeCard hebrewWords matureWords learningWords
    KnownType.potentiallyKnown = p at *
  split_ifs with h1 h2
  · simp only [beq_iff_eq, Bool.and_eq_true] at h1
    simp [h1.1, h1.2]
  · simp only [beq_iff_eq, Bool.and_eq_true, Bool.or_eq_true] at h1 h2
    constructor
    · simp
      omega
    · simp
      omega
  · simp only [beq_iff_eq, Bool.and_eq_true, Bool.or_eq_true] at h1 h2
    constructor
    · simp
      omega
    · simp
      omega

/-- C1 witness: the spec's own scenario — four words of which exactly
"מאוד" is unknown — is classified i-plus-1. -/
theorem sentence_classification_iff_unique_counts_witness :
    classifySubtitleUnit ["שלום", "עולם", "יפה", "מאוד"]
      ["שלום", "עולם", "יפה"] [] = SentenceClass.iPlus1 :=
  (sentence_classification_iff_unique_counts
    ["שלום", "עולם", "יפה", "מאוד"] ["שלום", "עולם", "יפה"] []
    (by decide)).1.mpr (by decide)

/-- C2: for a token known in neither set that begins with vav and has
length above 1, a vav-stripped match in the mature set yields `mature`
and a match only in the learning set yields `learning` — the vav rule
resolves before the potentially-known letter-stripping rule and never
downgrades to potentially-known. -/
theorem vav_rule_precedence
    (word : String) (matureWords learningWords : List String)
    (hm : normalizeHebrew word ∉ matureWords)
    (hl : normalizeHebrew word ∉ learningWords)
    (hv : headIs (normalizeHebrew word) vavChar = true)
    (hlen : 1 < (normalizeHebrew word).length) :
    (dropFirst (normalizeHebrew word) ∈ matureWords →
      getWordType word matureWords learningWords = WordType.mature) ∧
    (dropFirst (normalizeHebrew word) ∉ matureWords →
     dropFirst (normalizeHebrew word) ∈ learningWords →
      getWordType word matureWords learningWords = WordType.learning) := by
  constructor
  · intro hmv
    simp [getWordType, hm, hl, hv, hlen, hmv]
  · intro hmv hlv
    simp [getWordType, hm, hl, hv, hlen, hmv, hlv]

/-- C2 witness: the spec's example "וספר" with "ספר" mature resolves to
mature; "ובית" with "בית" only in the learning set resolves to
learning. -/
theorem vav_rule_precedence_witness :
    getWordType "וספר" ["ספר"] [] = WordType.mature ∧
    getWordType "ובית" [] ["בית"] = WordType.learning :=
  ⟨(vav_rule_precedence "וספר" ["ספר"] []
      (by decide) (by decide) (by decide) (by decide)).1 (by decide),
   (vav_rule_precedence "ובית" [] ["בית"]
      (by decide) (by decide) (by decide) (by decide)).2 (by decide) (by decide)⟩

/-- C3: a token known in neither set that begins with ל, ב or ש, has
length above 1, and whose stripped form is in either set is classified
`potentially-known` by both the Firefox and the Chrome classifier —
never mature or learning. -/
theorem letter_strip_gives_potentially_known
    (word : String) (matureWords learningWords : List String)
    (hm : normalizeHebrew word ∉ matureWords)
    (hl : normalizeHebrew word ∉ learningWords)
    (hp : headIs (normalizeHebrew word) lamedChar = true
        ∨ headIs (normalizeHebrew word) betChar = true
        ∨ headIs (normalizeHebrew word) shinChar = true)
    (hlen : 1 < (normalizeHebrew word).length)
    (hstripped : dropFirst (normalizeHebrew word) ∈ matureWords
        ∨ dropFirst (normalizeHebrew word) ∈ learningWords) :
    getWordType word matureWords learningWords = WordType.potentiallyKnown ∧
    getWordKnownType (normalizeHebrew word) matureWords learningWords
      = KnownType.potentiallyKnown := by
  have hv : headIs (normalizeHebrew word) vavChar = false := by
    rcases hp with h | h | h
    · exact headIs_unique h (by decide)
    · exact headIs_unique h (by decide)
    · exact headIs_unique h (by decide)
  have hloop : strippedLetterMatches (normalizeHebrew word)
      matureWords learningWords commonHebrewLetters = true := by
    rcases hp with h | h | h
    · rcases hstripped with hs | hs <;>
        simp [strippedLetterMatches, commonHebrewLetters, h, hlen, hs]
    · have hlam : headIs (normalizeHebrew word) lamedChar = false :=
        headIs_unique h (by decide)
      rcases hstripped with hs | hs <;>
        simp [strippedLetterMatches, commonHebrewLetters, h, hlam, hlen, hs]
    · have hlam : headIs (normalizeHebrew word) lamedChar = false :=
        headIs_unique h (by decide)
      have hbet : headIs (normalizeHebrew word) betChar = false :=
        headIs_unique h (by decide)
      rcases hstripped with hs | hs <;>
        simp [strippedLetterMatches, commonHebrewLetters, h, hlam, hbet, hlen, hs]
  constructor
  · simp [getWordType, hm, hl, hv, hloop]
  · simp [getWordKnownType, hm, hl, hv, hloop]

/-- C3 witness: the spec's example "בבית" with mature ["בית"] is
potentially-known in both implementations. -/
theorem letter_strip_gives_potentially_known_witness :
    getWordType "בבית" ["בית"] [] = WordType.potentiallyKnown ∧
    getWordKnownType (normalizeHebrew "בבית") ["בית"] []
      = KnownType.potentiallyKnown :=
  letter_strip_gives_potentially_known "בבית" ["בית"] []
    (by decide) (by decide) (Or.inr (Or.inl (by decide))) (by decide)
    (Or.inl (by decide))

/-- C4 counterexample: the same token against the same vocabulary is
classified differently depending on whether the mature entry carries
diacritics ("שָלוֹם") or has been stripped ("שלום") — the classifier
normalizes only the token, never the vocabulary entries, so diacritic-
carrying vocabulary input is not tolerated. -/
theorem vocab_entry_diacritics_change_classification :
    getWordType "שלום" ["שָלוֹם"] [] = WordType.unknown ∧
    getWordType "שלום" (["שָלוֹם"].map normalizeHebrew) ([].map normalizeHebrew)
      = WordType.mature ∧
    getWordType "שלום" ["שָלוֹם"] [] ≠
      getWordType "שלום" (["שָלוֹם"].map normalizeHebrew) ([].map normalizeHebrew) := by
  refine ⟨by decide, by decide, by decide⟩

/-- C4 amended: the classifier normalizes the token on every query —
classification is invariant under diacritic-stripping of the token —
while vocabulary entries are compared verbatim and must already be
normalized. -/
theorem classifier_normalizes_token_not_vocab
    (word : String) (matureWords learningWords : List String) :
    getWordType (normalizeHebrew word) matureWords learningWords =
      getWordType word matureWords learningWords := by
  simp only [getWordType, normalizeHebrew_idem]

/-- C5: no pair of (unknownCount, potentiallyKnownCount) values
satisfies both isI1Sentence and isPotentiallyI1Sentence: the former
needs potentiallyKnownCount 0, the latter 1. -/
theorem i1_and_potentially_i1_mutually_exclusive (sentence : SentenceInfo) :
    (isI1Sentence sentence && isPotentiallyI1Sentence sentence) = false := by
  rcases sentence with ⟨u, p⟩
  simp [isI1Sentence, isPotentiallyI1Sentence]
  omega

/-- C6: a text unit with fewer than 3 extracted Hebrew tokens of
normalized length above 1 is classified neither i-plus-1 nor
potentially-i-plus-1, whatever the vocabulary. -/
theorem short_sentences_never_classified
    (sentenceText : String) (matureWords learningWords : List String)
    (h : ((extractHebrewRuns sentenceText).filter
        (fun word => 1 < (normalizeHebrew word).length)).length < 3) :
    checkIfI1Sentence sentenceText matureWords learningWords = false ∧
    checkIfPotentiallyI1Sentence sentenceText matureWords learningWords = false := by
  constructor
  · simp only [checkIfI1Sentence]
    split_ifs with h1 <;> rfl
  · simp only [checkIfPotentiallyI1Sentence]
    split_ifs with h1 <;> rfl

/-- C6 witness: a two-token sentence is never classified, even with an
empty vocabulary making both words unknown. -/
theorem short_sentences_never_classified_witness :
    ((extractHebrewRuns "שלום עולם").filter
        (fun word => 1 < (normalizeHebrew word).length)).length < 3 ∧
    checkIfI1Sentence "שלום עולם" [] [] = false ∧
    checkIfPotentiallyI1Sentence "שלום עולם" [] [] = false :=
  ⟨by decide, short_sentences_never_classified "שלום עולם" [] [] (by decide)⟩

/-- C7: the aggregator on the empty subtitle collection returns the
all-zero stats object, and in general its percentage field is 0 when
there are no unique words and the half-up rounding of
known/total*100 (as an exact rational) otherwise — the division-by-zero
guard of part_003 line 87. -/
theorem aggregate_empty_and_percentage :
    (∀ matureWords learningWords : List String,
      computeStats [] matureWords learningWords =
        { total := 0, known := 0, potentiallyKnown := 0, percentage := 0,
          i1Sentences := 0, potentiallyI1Sentences := 0 }) ∧
    (∀ subtitles matureWords learningWords : List String,
      ((computeStats subtitles matureWords learningWords).total = 0 →
        (computeStats subtitles matureWords learningWords).percentage = 0) ∧
      (0 < (computeStats subtitles matureWords learningWords).total →
        ((computeStats subtitles matureWords learningWords).percentage : ℤ) =
          round (((computeStats subtitles matureWords learningWords).known : ℚ) /
            ((computeStats subtitles matureWords learningWords).total : ℚ) * 100))) := by
  constructor
  · intro matureWords learningWords
    rfl
  · intro subtitles matureWords learningWords
    constructor
    · intro h0
      rw [computeStats_percentage, if_neg (by omega)]
    · intro hpos
      rw [computeStats_percentage, if_pos hpos]
      exact roundPercentage_eq_round hpos

/-- C7 witness: one subtitle with three unique words of which one is
known gives a positive total and percentage round(100/3) = 33. -/
theorem aggregate_empty_and_percentage_witness :
    0 < (computeStats ["שלום עולם יפה"] ["שלום"] []).total ∧
    ((computeStats ["שלום עולם יפה"] ["שלום"] []).percentage : ℤ) =
      round (((computeStats ["שלום עולם יפה"] ["שלום"] []).known : ℚ) /
        ((computeStats ["שלום עולם יפה"] ["שלום"] []).total : ℚ) * 100) :=
  ⟨by decide,
   (aggregate_empty_and_percentage.2 ["שלום עולם יפה"] ["שלום"] []).2 (by decide)⟩

/-- C8: when the external vocabulary fetch fails, the aggregator
returns the zeroed stats object instead of propagating the error. -/
theorem fetch_failure_returns_zero_stats
    (e : String) (subtitles : List String) :
    calculateComprehensionStats (Except.error e) subtitles =
      { total := 0, known := 0, potentiallyKnown := 0, percentage := 0,
        i1Sentences := 0, potentiallyI1Sentences := 0 } := rfl

/-- C9: normalizeHebrew (the diacritic stripper) is idempotent. -/
theorem stripDiacritics_idempotent (x : String) :
    normalizeHebrew (normalizeHebrew x) = normalizeHebrew x :=
  normalizeHebrew_idem x

/-- C10: on an already-normalized word, the Chrome classifier
getWordKnownType collapses the Firefox classifier getWordType: known
iff mature-or-learning, potentially-known iff potentially-known,
unknown iff unknown; moreover the Firefox classifier and the content
coordinator's copy agree outright. -/
theorem classifiers_agree_up_to_collapse
    (word : String) (matureWords learningWords : List String)
    (hnorm : normalizeHebrew word = word) :
    (getWordKnownType word matureWords learningWords = KnownType.known ↔
      (getWordType word matureWords learningWords = WordType.mature ∨
       getWordType word matureWords learningWords = WordType.learning)) ∧
    (getWordKnownType word matureWords learningWords = KnownType.potentiallyKnown ↔
      getWordType word matureWords learningWords = WordType.potentiallyKnown) ∧
    (getWordKnownType word matureWords learningWords = KnownType.unknown ↔
      getWordType word matureWords learningWords = WordType.unknown) ∧
    getWordType word matureWords learningWords =
      getWordTypeCoordinator word matureWords learningWords := by
  simp only [getWordType, getWordKnownType, getWordTypeCoordinator, hnorm]
  cases hM : matureWords.contains word <;>
    cases hL : learningWords.contains word <;>
    cases hV : headIs word vavChar <;>
    cases hlen : decide (1 < word.length) <;>
    cases hMv : matureWords.contains (dropFirst word) <;>
    cases hLv : learningWords.contains (dropFirst word) <;>
    cases hS : strippedLetterMatches word matureWords learningWords
      commonHebrewLetters <;>
    simp_all

/-- C10 witness: an exact mature match is `known` for the Chrome
classifier. -/
theorem classifiers_agree_up_to_collapse_witness :
    getWordKnownType "שלום" ["שלום"] [] = KnownType.known :=
  (classifiers_agree_up_to_collapse "שלום" ["שלום"] [] (by decide)).1.mpr
    (Or.inl (by decide))
